import Mathlib

set_option maxHeartbeats 1000000

/-!
Verification of the `pandas_redshift` core: statement batching
(`core.py`), identifier quoting (`core.py`), the type registry
(`types.py:get_redshift_type`) and the per-type encoders (`types.py`).
Python strings are modelled as Lean `String` (or as lists of code
points where lone surrogates matter), and UTF-8 byte sizes via
`Char.utf8Size`.
-/

/-- UTF-8 byte length of a string: the sum of the UTF-8 sizes of its
characters.  Models `len(to_utf8_bytes(text))` from `utils.py`, i.e.
`len(text.encode("utf-8"))`. -/
def utf8_byte_length (s : String) : Nat :=
  (s.data.map Char.utf8Size).sum

theorem string_append_data (a b : String) : (a ++ b).data = a.data ++ b.data := by
  cases a
  cases b
  rfl

theorem utf8_byte_length_append (a b : String) :
    utf8_byte_length (a ++ b) = utf8_byte_length a + utf8_byte_length b := by
  simp [utf8_byte_length, string_append_data]

theorem string_append_assoc (a b c : String) : a ++ b ++ c = a ++ (b ++ c) := by
  cases a
  cases b
  cases c
  show String.mk _ = String.mk _
  simp [string_append_data, String.data]

theorem utf8_byte_length_replicate (n : Nat) (c : Char) :
    utf8_byte_length (String.mk (List.replicate n c)) = n * c.utf8Size := by
  simp [utf8_byte_length, List.map_replicate]

/-- The fixed statement byte ceiling `RedshiftConnector._MAX_STATEMENT_SIZE`
(`core.py`, line 340). -/
def _MAX_STATEMENT_SIZE : Nat := 100000

/-- Python `sep.join(xs)`: the elements of `xs` concatenated with `sep`
between consecutive elements. -/
def pyJoin (sep : String) : List String → String
  | [] => ""
  | [x] => x
  | x :: y :: xs => x ++ sep ++ pyJoin sep (y :: xs)

theorem pyJoin_append_singleton (sep x : String) :
    ∀ (l : List String), l ≠ [] →
      pyJoin sep (l ++ [x]) = pyJoin sep l ++ sep ++ x
  | [], h => absurd rfl h
  | [a], _ => rfl
  | a :: b :: l, _ => by
      have ih := pyJoin_append_singleton sep x (b :: l) (by simp)
      simp only [List.cons_append] at ih
      show a ++ sep ++ pyJoin sep (b :: (l ++ [x]))
          = a ++ sep ++ pyJoin sep (b :: l) ++ sep ++ x
      rw [ih]
      simp only [string_append_assoc]

/-- `RedshiftConnector._generate_insert_sql_value`: renders one encoded row
as `"(" + ",".join(row) + ")"`. -/
def _generate_insert_sql_value (row : List String) : String :=
  "(" ++ pyJoin "," row ++ ")"

/-- The `for` loop of `RedshiftConnector._generate_insert_sqls` from index 1
on: `insert_sql` is the statement text accumulated so far, `values` the
remaining rendered row tuples, `index` the current row index and `total`
the total row count.  Each emitted pair is
`(remaining_rows, statement_text)` exactly as yielded by the source. -/
def insertSqlLoop (pfx insert_sql : String) (values : List String)
    (index total : Nat) : List (Nat × String) :=
  match values with
  | [] => [(0, insert_sql ++ ";")]
  | v :: rest =>
    let tmp_insert_sql := insert_sql ++ "," ++ v
    if _MAX_STATEMENT_SIZE ≤ utf8_byte_length tmp_insert_sql then
      (max 0 (total - index), insert_sql ++ ";") ::
        insertSqlLoop pfx (pfx ++ v) rest (index + 1) total
    else
      insertSqlLoop pfx tmp_insert_sql rest (index + 1) total

/-- `RedshiftConnector._generate_insert_sqls`, with the statement text
`INSERT INTO ... VALUES ` precomputed as `pfx` and each row already rendered
by `_generate_insert_sql_value` into an element of `values`.  The first row
is placed into a fresh statement unconditionally (the `index == 0` branch);
every later row goes through the byte-size test. -/
def _generate_insert_sqls (pfx : String) (values : List String) :
    List (Nat × String) :=
  match values with
  | [] => [(0, pfx ++ ";")]
  | v :: rest => insertSqlLoop pfx (pfx ++ v) rest 1 values.length

theorem insertSqlLoop_chunks (pfx : String) :
    ∀ (values c0 : List String) (i t : Nat), c0 ≠ [] →
      ∃ chunks : List (List String),
        chunks ≠ [] ∧ chunks.flatten = c0 ++ values ∧
        (insertSqlLoop pfx (pfx ++ pyJoin "," c0) values i t).map Prod.snd =
          chunks.map (fun c => pfx ++ pyJoin "," c ++ ";")
  | [], c0, i, t, _ => ⟨[c0], by simp, by simp, by simp [insertSqlLoop]⟩
  | v :: rest, c0, i, t, hc0 => by
      rw [insertSqlLoop]
      by_cases hsz : _MAX_STATEMENT_SIZE ≤
          utf8_byte_length (pfx ++ pyJoin "," c0 ++ "," ++ v)
      · simp only [hsz, if_pos]
        have hv : pfx ++ v = pfx ++ pyJoin "," [v] := rfl
        obtain ⟨chunks, hne, hjoin, hmap⟩ :=
          insertSqlLoop_chunks pfx rest [v] (i + 1) t (by simp)
        refine ⟨c0 :: chunks, by simp, ?_, ?_⟩
        · simp [hjoin]
        · rw [hv] at *
          simp only [List.map_cons, hmap]
      · simp only [hsz, if_neg, not_false_iff]
        have hacc : pfx ++ pyJoin "," c0 ++ "," ++ v
            = pfx ++ pyJoin "," (c0 ++ [v]) := by
          rw [pyJoin_append_singleton "," v c0 hc0,
            ← string_append_assoc, ← string_append_assoc]
        rw [hacc]
        obtain ⟨chunks, hne, hjoin, hmap⟩ :=
          insertSqlLoop_chunks pfx rest (c0 ++ [v]) (i + 1) t (by simp)
        exact ⟨chunks, hne, by simpa using hjoin, hmap⟩

/-- C1: For every prefix and every list of rendered row tuples in which each
single-row statement stays strictly under the byte ceiling, the emitted
statements partition the rows into consecutive chunks: no row is split
across two statements, concatenating the chunks in emission order
reproduces the input rows exactly, and at least one (the final) statement
is always emitted. -/
theorem generate_insert_sqls_preserves_rows (pfx : String)
    (values : List String)
    (hpre : ∀ v ∈ values,
      utf8_byte_length (pfx ++ v) < _MAX_STATEMENT_SIZE) :
    ∃ chunks : List (List String),
      chunks ≠ [] ∧ chunks.flatten = values ∧
      (_generate_insert_sqls pfx values).map Prod.snd =
        chunks.map (fun c => pfx ++ pyJoin "," c ++ ";") := by
  cases values with
  | nil =>
      exact ⟨[[]], by simp, by simp, by simp [_generate_insert_sqls, pyJoin]⟩
  | cons v rest =>
      have h := insertSqlLoop_chunks pfx rest [v] 1 (v :: rest).length
        (by simp)
      simpa [_generate_insert_sqls, pyJoin] using h

theorem generate_insert_sqls_preserves_rows_witness :
    (∀ v ∈ ["(1)", "(2)"],
      utf8_byte_length ("INSERT INTO t VALUES " ++ v) < _MAX_STATEMENT_SIZE) ∧
    ∃ chunks : List (List String),
      chunks ≠ [] ∧ chunks.flatten = ["(1)", "(2)"] ∧
      (_generate_insert_sqls "INSERT INTO t VALUES " ["(1)", "(2)"]).map
          Prod.snd =
        chunks.map
          (fun c => "INSERT INTO t VALUES " ++ pyJoin "," c ++ ";") :=
  ⟨by decide, generate_insert_sqls_preserves_rows "INSERT INTO t VALUES "
    ["(1)", "(2)"] (by decide)⟩

theorem utf8_byte_length_semicolon : utf8_byte_length ";" = 1 := by decide

theorem insertSqlLoop_size (pfx : String) :
    ∀ (values : List String) (cur : String) (i t : Nat),
      utf8_byte_length cur < _MAX_STATEMENT_SIZE →
      (∀ v ∈ values,
        utf8_byte_length (pfx ++ v) < _MAX_STATEMENT_SIZE) →
      ∀ p ∈ insertSqlLoop pfx cur values i t,
        utf8_byte_length p.2 ≤ _MAX_STATEMENT_SIZE
  | [], cur, i, t, hcur, _, p, hp => by
      simp only [insertSqlLoop, List.mem_singleton] at hp
      subst hp
      simp only [utf8_byte_length_append, utf8_byte_length_semicolon]
      omega
  | v :: rest, cur, i, t, hcur, hpre, p, hp => by
      rw [insertSqlLoop] at hp
      by_cases hsz : _MAX_STATEMENT_SIZE ≤ utf8_byte_length (cur ++ "," ++ v)
      · simp only [hsz, if_pos, List.mem_cons] at hp
        rcases hp with hp | hp
        · subst hp
          simp only [utf8_byte_length_append, utf8_byte_length_semicolon]
          omega
        · exact insertSqlLoop_size pfx rest (pfx ++ v) (i + 1) t
            (hpre v (by simp)) (fun w hw => hpre w (by simp [hw])) p hp
      · simp only [hsz, if_neg, not_false_iff] at hp
        exact insertSqlLoop_size pfx rest (cur ++ "," ++ v) (i + 1) t
          (by omega) (fun w hw => hpre w (by simp [hw])) p hp

/-- C2 (amended): For every nonempty encoded table that passes the
pre-flight single-row size check, every statement emitted by
`_generate_insert_sqls` has UTF-8 byte length at most (not strictly less
than) the 100000-byte ceiling: the accumulated text is kept strictly under
the ceiling, but the terminating `";"` is appended after the test, so an
emitted statement can reach exactly 100000 bytes. -/
theorem generate_insert_sqls_size_le_ceiling (pfx : String)
    (values : List String) (hne : values ≠ [])
    (hpre : ∀ v ∈ values,
      utf8_byte_length (pfx ++ v) < _MAX_STATEMENT_SIZE) :
    ∀ p ∈ _generate_insert_sqls pfx values,
      utf8_byte_length p.2 ≤ _MAX_STATEMENT_SIZE := by
  cases values with
  | nil => exact absurd rfl hne
  | cons v rest =>
      intro p hp
      rw [_generate_insert_sqls] at hp
      exact insertSqlLoop_size pfx rest (pfx ++ v) 1 (v :: rest).length
        (hpre v (by simp)) (fun w hw => hpre w (by simp [hw])) p hp

theorem generate_insert_sqls_size_le_ceiling_witness :
    ((["(1)", "(2)"] : List String) ≠ [] ∧
      ∀ v ∈ ["(1)", "(2)"],
        utf8_byte_length ("INSERT INTO t VALUES " ++ v)
          < _MAX_STATEMENT_SIZE) ∧
    ∀ p ∈ _generate_insert_sqls "INSERT INTO t VALUES " ["(1)", "(2)"],
      utf8_byte_length p.2 ≤ _MAX_STATEMENT_SIZE :=
  ⟨⟨by decide, by decide⟩,
    generate_insert_sqls_size_le_ceiling "INSERT INTO t VALUES "
      ["(1)", "(2)"] (by decide) (by decide)⟩

/-- The `INSERT INTO "public"."t" ("c") VALUES ` prefix used by the C2
counterexample (38 ASCII characters). -/
def ceilingPfx : String :=
  "INSERT INTO \x22public\x22.\x22t\x22 (\x22c\x22) VALUES "

/-- A single rendered row tuple of 99961 ASCII bytes, so that
prefix + row is 99999 bytes: strictly under the ceiling, hence accepted by
the pre-flight check. -/
def ceilingRow : String :=
  "(" ++ String.mk (List.replicate 99959 'a') ++ ")"

theorem utf8_byte_length_ceilingPfx : utf8_byte_length ceilingPfx = 38 := by
  decide

theorem utf8_byte_length_ceilingRow : utf8_byte_length ceilingRow = 99961 := by
  rw [ceilingRow, utf8_byte_length_append, utf8_byte_length_append,
    utf8_byte_length_replicate]
  decide

/-- C2 counterexample: with the 38-byte prefix and one 99961-byte row, the
pre-flight check passes (99999 < 100000), yet the single emitted statement
is exactly 100000 bytes long, so its byte length does reach the ceiling:
the claim that every emitted statement stays strictly under the ceiling is
false. -/
theorem generate_insert_sqls_reaches_ceiling :
    (∀ v ∈ [ceilingRow],
      utf8_byte_length (ceilingPfx ++ v) < _MAX_STATEMENT_SIZE) ∧
    ¬ (∀ p ∈ _generate_insert_sqls ceilingPfx [ceilingRow],
        utf8_byte_length p.2 < _MAX_STATEMENT_SIZE) := by
  have hrow : utf8_byte_length (ceilingPfx ++ ceilingRow) = 99999 := by
    rw [utf8_byte_length_append, utf8_byte_length_ceilingPfx,
      utf8_byte_length_ceilingRow]
  have hout : _generate_insert_sqls ceilingPfx [ceilingRow]
      = [(0, ceilingPfx ++ ceilingRow ++ ";")] := rfl
  constructor
  · intro v hv
    simp only [List.mem_singleton] at hv
    subst hv
    rw [hrow]
    decide
  · intro h
    have := h (0, ceilingPfx ++ ceilingRow ++ ";") (by rw [hout]; simp)
    rw [utf8_byte_length_append, hrow, utf8_byte_length_semicolon] at this
    exact absurd this (by decide)

/-- The loop of `RedshiftConnector._check_row_length`: walks the rendered
row tuples in order and fails with the index of the first row whose
single-row statement `prefix + value` (no terminating semicolon) reaches
the ceiling; the raised `DataEncodeError("Row[index] is beyond size
limitation")` is modelled as `Except.error index`. -/
def checkRowLoop (pfx : String) : List String → Nat → Except Nat Unit
  | [], _ => .ok ()
  | v :: rest, index =>
    if _MAX_STATEMENT_SIZE ≤ utf8_byte_length (pfx ++ v) then .error index
    else checkRowLoop pfx rest (index + 1)

/-- `RedshiftConnector._check_row_length` over rendered row tuples. -/
def _check_row_length (pfx : String) (values : List String) :
    Except Nat Unit :=
  checkRowLoop pfx values 0

/-- The write path of `to_redshift` after per-column encoding: `encode_data`
runs `_check_row_length` and raises before returning on failure;
only afterwards does `load_dataframe` →`_load_chunks` generate any INSERT
statement (and `_load_chunks` emits nothing at all for zero rows).
The result is the list of statements submitted to the executor, or the
failing row index. -/
def write_statements (pfx : String) (values : List String) :
    Except Nat (List (Nat × String)) :=
  match _check_row_length pfx values with
  | .error index => .error index
  | .ok _ =>
    .ok (if values.length = 0 then [] else _generate_insert_sqls pfx values)

theorem checkRowLoop_first_bad (pfx : String) :
    ∀ (values : List String) (k i : Nat) (v : String),
      values.get? i = some v →
      _MAX_STATEMENT_SIZE ≤ utf8_byte_length (pfx ++ v) →
      (∀ j w, j < i → values.get? j = some w →
        utf8_byte_length (pfx ++ w) < _MAX_STATEMENT_SIZE) →
      checkRowLoop pfx values k = .error (k + i)
  | [], k, i, v, hget, _, _ => by simp at hget
  | u :: rest, k, i, v, hget, hbig, hmin => by
      cases i with
      | zero =>
          simp only [List.get?] at hget
          cases hget
          simp [checkRowLoop, hbig]
      | succ i' =>
          have hu : utf8_byte_length (pfx ++ u) < _MAX_STATEMENT_SIZE :=
            hmin 0 u (Nat.succ_pos i') rfl
          rw [checkRowLoop, if_neg (by omega)]
          have := checkRowLoop_first_bad pfx rest (k + 1) i' v hget hbig
            (fun j w hj hw => hmin (j + 1) w (by omega) (by simpa using hw))
          rw [this]
          congr 1
          omega

/-- C3: if some row's single-row statement (prefix + row tuple) reaches or
exceeds the 100000-byte ceiling, the write path fails with
`DataEncodeError` naming the index of the first such row, and produces zero
INSERT statements (the failure happens in `encode_data`, before
`_load_chunks` runs). -/
theorem write_fails_on_oversized_row (pfx : String) (values : List String)
    (i : Nat) (v : String)
    (hget : values.get? i = some v)
    (hbig : _MAX_STATEMENT_SIZE ≤ utf8_byte_length (pfx ++ v))
    (hmin : ∀ j w, j < i → values.get? j = some w →
      utf8_byte_length (pfx ++ w) < _MAX_STATEMENT_SIZE) :
    write_statements pfx values = .error i := by
  have h := checkRowLoop_first_bad pfx values 0 i v hget hbig hmin
  rw [write_statements, _check_row_length, h]
  simp

/-- A row that on its own reaches the ceiling: 100000 bytes of `a`. -/
def oversizedRow : String := String.mk (List.replicate 100000 'a')

theorem write_fails_on_oversized_row_witness :
    ([oversizedRow].get? 0 = some oversizedRow ∧
      _MAX_STATEMENT_SIZE ≤ utf8_byte_length ("" ++ oversizedRow)) ∧
    write_statements "" [oversizedRow] = .error 0 := by
  have hlen : utf8_byte_length ("" ++ oversizedRow) = 100000 := by
    rw [utf8_byte_length_append, oversizedRow, utf8_byte_length_replicate]
    decide
  refine ⟨⟨rfl, by rw [hlen]; decide⟩, ?_⟩
  exact write_fails_on_oversized_row "" [oversizedRow] 0 oversizedRow rfl
    (by rw [hlen]; decide) (fun j w hj _ => absurd hj (by omega))

/-- The rounded coefficient of `Decimal.quantize(Decimal("1." + "0"*scale),
rounding=ROUND_HALF_UP)` on the exact decimal value `q`: the integer `n`
such that the rounded result is `n / 10^scale`, rounding ties away from
zero. -/
def round_half_up_int (scale : Nat) (q : ℚ) : ℤ :=
  if 0 ≤ q then ⌊q * 10 ^ scale + 1 / 2⌋
  else -⌊-q * 10 ^ scale + 1 / 2⌋

/-- The value of the rounded result, `coefficient / 10^scale`. -/
def round_half_up (scale : Nat) (q : ℚ) : ℚ :=
  (round_half_up_int scale q : ℚ) / 10 ^ scale

/-- `Decimal(str(val)).quantize(self.__exp_to_quantize__,
rounding=ROUND_HALF_UP)` under Python's default decimal context
(`getcontext().prec = 28`): if the length of the rounded coefficient
would exceed 28 digits, `quantize` signals `decimal.InvalidOperation`
(which propagates uncaught — `encode_data` only catches `TypeError`);
otherwise it returns the rounded decimal. -/
def pyQuantize (scale : Nat) (q : ℚ) : Except String ℚ :=
  if 10 ^ 28 ≤ (round_half_up_int scale q).natAbs then
    .error "InvalidOperation"
  else
    .ok (round_half_up scale q)

/-- `Numeric._encode_numeric` on a non-null value.  `max_abs` is the
stored threshold `__max_abs__ = Decimal(str(math.pow(10.0, precision -
scale)))` — a platform float computation, taken here as a parameter.  For
`precision - scale ≤ 22` the double `10.0 ** k` is exactly `10^k` and its
shortest repr re-parses to exactly `10^k`, so there
`max_abs = 10^(precision - scale)`; at larger exponents the stored
threshold can differ from the exact power (e.g. `str(math.pow(10.0, 23))`
is `1.0000000000000001e+23`).  The value is quantized first (possibly
signalling `InvalidOperation`), then rejected with the out-of-range
`TypeError` when `__max_abs__ <= abs(rounded)`, else the rounded decimal
is returned (its decimal text `str(decimal_val)` is the produced
literal). -/
def _encode_numeric (max_abs : ℚ) (scale : Nat) (q : ℚ) :
    Except String ℚ :=
  match pyQuantize scale q with
  | .error e => .error e
  | .ok decimal_val =>
    if max_abs ≤ |decimal_val| then
      .error "is out of range for type NUMERIC"
    else
      .ok decimal_val

theorem round_half_up_aux (P x : ℚ) (hP : 0 < P) :
    |(⌊x * P + 1 / 2⌋ : ℚ) / P - x| ≤ 1 / (2 * P) := by
  have h1 : (⌊x * P + 1 / 2⌋ : ℚ) ≤ x * P + 1 / 2 := Int.floor_le _
  have h2 : x * P + 1 / 2 - 1 < (⌊x * P + 1 / 2⌋ : ℚ) :=
    Int.sub_one_lt_floor _
  have key : |(⌊x * P + 1 / 2⌋ : ℚ) - x * P| ≤ 1 / 2 := by
    rw [abs_le]
    constructor <;> nlinarith
  have heq : (⌊x * P + 1 / 2⌋ : ℚ) / P - x
      = ((⌊x * P + 1 / 2⌋ : ℚ) - x * P) / P := by
    field_simp
    ring
  rw [heq, abs_div, abs_of_pos hP]
  calc |(⌊x * P + 1 / 2⌋ : ℚ) - x * P| / P ≤ (1 / 2) / P := by gcongr
    _ = 1 / (2 * P) := by ring

/-- C4 counterexample: the claim demands that `Numeric(35, 0)` encode
`1e30` successfully (the rounded value `10^30` is strictly below the
claim's threshold `10^(35-0)`) and that every failure be the out-of-range
error.  In the program, `quantize` under the default 28-digit decimal
context signals `InvalidOperation` on the 31-digit coefficient `10^30`
before the threshold is consulted at all (the first conjunct shows the
quantize step itself raises, so this outcome does not depend on the exact
float value of `__max_abs__`), and `InvalidOperation` is not the
out-of-range `TypeError`. -/
theorem numeric_encode_invalid_operation :
    pyQuantize 0 ((10 : ℚ) ^ (30 : Nat)) = .error "InvalidOperation" ∧
    _encode_numeric ((10 : ℚ) ^ (35 : Nat)) 0 ((10 : ℚ) ^ (30 : Nat))
      = .error "InvalidOperation" ∧
    |round_half_up 0 ((10 : ℚ) ^ (30 : Nat))| < (10 : ℚ) ^ (35 : Nat) ∧
    "InvalidOperation" ≠ "is out of range for type NUMERIC" := by
  have hint : round_half_up_int 0 ((10 : ℚ) ^ (30 : Nat)) = 10 ^ 30 := by
    rw [round_half_up_int, if_pos (by positivity)]
    norm_num
  have hq : pyQuantize 0 ((10 : ℚ) ^ (30 : Nat))
      = .error "InvalidOperation" := by
    rw [pyQuantize, hint, if_pos (by norm_num)]
  refine ⟨hq, ?_, ?_, by decide⟩
  · simp only [_encode_numeric, hq]
  · rw [round_half_up, hint]
    norm_num

/-- C4 (amended): encoding a non-null value under `Numeric(precision,
scale)` first rounds to `scale` digits with round-half-up; when the
rounded coefficient exceeds the default decimal context's 28 digits,
`quantize` signals `InvalidOperation` (propagating uncaught); otherwise
the encoder fails with the out-of-range error exactly when the absolute
rounded value reaches the stored threshold `__max_abs__` (the decimal
re-parse of the float power `10.0 ** (precision - scale)`, equal to
exactly `10^(precision - scale)` whenever `precision - scale ≤ 22`), and
else yields the rounded decimal — which is an integer multiple of
`10^(-scale)` within half an ulp of the input.  `Numeric(3, 1)`, whose
threshold is exactly `10^2`, rejects `100` as out of range. -/
theorem numeric_encode_quantize_then_range_checks (max_abs : ℚ)
    (scale : Nat) (q : ℚ) :
    (match _encode_numeric max_abs scale q with
      | .error e =>
          (e = "InvalidOperation" ∧
            10 ^ 28 ≤ (round_half_up_int scale q).natAbs) ∨
          (e = "is out of range for type NUMERIC" ∧
            (round_half_up_int scale q).natAbs < 10 ^ 28 ∧
            max_abs ≤ |round_half_up scale q|)
      | .ok r => r = round_half_up scale q ∧
          (round_half_up_int scale q).natAbs < 10 ^ 28 ∧
          |round_half_up scale q| < max_abs) ∧
    (∃ n : ℤ, round_half_up scale q = (n : ℚ) / 10 ^ scale ∧
      |round_half_up scale q - q| ≤ 1 / (2 * 10 ^ scale)) ∧
    _encode_numeric ((10 : ℚ) ^ (2 : Nat)) 1 (100 : ℚ)
      = .error "is out of range for type NUMERIC" := by
  refine ⟨?_, ?_, ?_⟩
  · by_cases hctx : 10 ^ 28 ≤ (round_half_up_int scale q).natAbs
    · have hq : pyQuantize scale q = .error "InvalidOperation" := by
        rw [pyQuantize, if_pos hctx]
      simp only [_encode_numeric, hq]
      exact Or.inl ⟨trivial, hctx⟩
    · have hq : pyQuantize scale q = .ok (round_half_up scale q) := by
        rw [pyQuantize, if_neg hctx]
      by_cases hrange : max_abs ≤ |round_half_up scale q|
      · simp only [_encode_numeric, hq, if_pos hrange]
        exact Or.inr ⟨trivial, lt_of_not_le hctx, hrange⟩
      · simp only [_encode_numeric, hq, if_neg hrange]
        exact ⟨trivial, lt_of_not_le hctx, lt_of_not_le hrange⟩
  · have hP : (0 : ℚ) < 10 ^ scale := by positivity
    refine ⟨round_half_up_int scale q, rfl, ?_⟩
    by_cases hq : 0 ≤ q
    · rw [round_half_up, round_half_up_int, if_pos hq]
      exact round_half_up_aux (10 ^ scale) q hP
    · rw [round_half_up, round_half_up_int, if_neg hq]
      push_cast
      have h := round_half_up_aux (10 ^ scale) (-q) hP
      rw [show -(⌊-q * 10 ^ scale + 1 / 2⌋ : ℚ) / 10 ^ scale - q
          = -((⌊-q * 10 ^ scale + 1 / 2⌋ : ℚ) / 10 ^ scale - -q) by ring,
        abs_neg]
      exact h
  · have hint : round_half_up_int 1 (100 : ℚ) = 1000 := by
      rw [round_half_up_int, if_pos (by norm_num)]
      norm_num
    have hq : pyQuantize 1 (100 : ℚ) = .ok (round_half_up 1 (100 : ℚ)) := by
      rw [pyQuantize, if_neg (by rw [hint]; norm_num)]
    have hval : round_half_up 1 (100 : ℚ) = 100 := by
      rw [round_half_up, hint]
      norm_num
    simp only [_encode_numeric, hq]
    rw [if_pos (by rw [hval]; norm_num)]

/-- The line-boundary characters of Python `str.splitlines`. -/
def isLineBoundary (c : Char) : Bool :=
  c = '\n' || c = '\r' || c = '\x0b' || c = '\x0c' ||
  c = '\x1c' || c = '\x1d' || c = '\x1e' || c = '\x85' ||
  c = ' ' || c = ' '

/-- Worker for Python `str.splitlines`: `acc` holds the current line in
reverse; a `\r\n` pair counts as a single boundary; a trailing boundary
does not open a final empty line. -/
def splitlinesAux (acc : List Char) : List Char → List (List Char)
  | [] => [acc.reverse]
  | c :: rest =>
    if c = '\r' ∧ rest.head? = some '\n' then
      acc.reverse ::
        (if rest.tail = [] then [] else splitlinesAux [] rest.tail)
    else if isLineBoundary c then
      acc.reverse :: (if rest = [] then [] else splitlinesAux [] rest)
    else
      splitlinesAux (c :: acc) rest
termination_by l => l.length
decreasing_by
  · simp only [List.length_cons]
    have := List.length_tail rest
    omega
  · simp
  · simp

/-- Python `str.splitlines` (with `""` mapping to `[]`). -/
def pySplitlines (s : String) : List String :=
  if s.data = [] then [] else (splitlinesAux [] s.data).map String.mk

/-- Worker for Python `str.replace`: leftmost non-overlapping replacement
of the pattern `pat` by `rep`. -/
def pyReplaceAux (pat rep : List Char) : List Char → List Char
  | [] => []
  | c :: rest =>
    if pat ≠ [] ∧ pat.isPrefixOf (c :: rest) then
      rep ++ pyReplaceAux pat rep (rest.drop (pat.length - 1))
    else
      c :: pyReplaceAux pat rep rest
termination_by l => l.length
decreasing_by
  · simp only [List.length_cons]
    have := List.length_drop (pat.length - 1) rest
    omega
  · simp

/-- Python `str.replace(old, new)` for a non-empty `old` (every pattern in
`_ESCAPES` is a single character; the empty-pattern case of Python
`replace` is never exercised and is modelled as the identity). -/
def pyReplace (s old new : String) : String :=
  if old.data = [] then s else ⟨pyReplaceAux old.data new.data s.data⟩

/-- `RedshiftType._ESCAPES` (`types.py`, lines 101-108), in source order:
backslash, single quote, newline, tab, backspace, formfeed. -/
def _ESCAPES : List (String × String) :=
  [("\\", "\\\\"), ("\x27", "\\\x27"), ("\n", "\\n"),
   ("\t", "\\t"), ("\x08", "\\b"), ("\x0c", "\\f")]

/-- The escape loop of `RedshiftType._encode_text`: the replacements of
`_ESCAPES` applied successively, in order. -/
def applyEscapes (s : String) : String :=
  _ESCAPES.foldl (fun acc pr => pyReplace acc pr.1 pr.2) s

/-- `RedshiftType._encode_text` on an accepted non-null string (`_check`
passes or is a no-op): line-ending normalization
`"\n".join(text.splitlines())`, then the `_ESCAPES` replacements in order,
then wrapping in single quotes. -/
def _encode_text (s : String) : String :=
  "\x27" ++ applyEscapes (pyJoin "\n" (pySplitlines s)) ++ "\x27"

/-- The claim's escape table as one simultaneous character substitution:
`\` ↦ `\\`, `'` ↦ `\'`, newline ↦ `\n`, tab ↦ `\t`, backspace ↦ `\b`,
formfeed ↦ `\f`, all other characters unchanged. -/
def specEscapeChar (c : Char) : List Char :=
  if c = '\\' then ['\\', '\\']
  else if c = '\x27' then ['\\', '\x27']
  else if c = '\n' then ['\\', 'n']
  else if c = '\t' then ['\\', 't']
  else if c = '\x08' then ['\\', 'b']
  else if c = '\x0c' then ['\\', 'f']
  else [c]

/-- The claim's escaping phase, applied to a whole string. -/
def specEscape (s : String) : String :=
  ⟨s.data.flatMap specEscapeChar⟩

theorem pyReplaceAux_single (p : Char) (rep : List Char) :
    ∀ l : List Char, pyReplaceAux [p] rep l
      = l.flatMap (fun c => if c = p then rep else [c])
  | [] => by simp [pyReplaceAux]
  | c :: rest => by
      rw [pyReplaceAux]
      by_cases h : c = p
      · rw [if_pos (by simp [List.isPrefixOf, h])]
        simp [h, pyReplaceAux_single p rep rest]
      · rw [if_neg]
        · simp [h, pyReplaceAux_single p rep rest]
        · rintro ⟨-, hpre⟩
          simp [List.isPrefixOf] at hpre
          exact h hpre.symm

/-- A single-character substitution step: `escStep p rep` maps `p` to
`rep` and leaves every other character unchanged. -/
def escStep (p : Char) (rep : List Char) (c : Char) : List Char :=
  if c = p then rep else [c]

theorem string_eq_of_data (a b : String) (h : a.data = b.data) : a = b := by
  cases a
  cases b
  cases h
  rfl

theorem pyReplace_data (s : String) (p : Char) (old new : String)
    (hold : old.data = [p]) :
    (pyReplace s old new).data = s.data.flatMap (escStep p new.data) := by
  rw [pyReplace, if_neg (by simp [hold]), hold]
  exact pyReplaceAux_single p new.data s.data

theorem applyEscapes_eq (s : String) :
    applyEscapes s =
      pyReplace (pyReplace (pyReplace (pyReplace (pyReplace
        (pyReplace s "\\" "\\\\") "\x27" "\\\x27") "\n" "\\n")
        "\t" "\\t") "\x08" "\\b") "\x0c" "\\f" := rfl

theorem escape_chain (l : List Char) :
    ((((((l.flatMap (escStep '\\' ['\\', '\\'])).flatMap
      (escStep '\x27' ['\\', '\x27'])).flatMap
      (escStep '\n' ['\\', 'n'])).flatMap
      (escStep '\t' ['\\', 't'])).flatMap
      (escStep '\x08' ['\\', 'b'])).flatMap
      (escStep '\x0c' ['\\', 'f']))
    = l.flatMap specEscapeChar := by
  induction l with
  | nil => rfl
  | cons c l ih =>
      simp only [List.flatMap_cons, List.flatMap_append]
      rw [ih]
      congr 1
      by_cases h1 : c = '\\'
      · subst h1; decide
      by_cases h2 : c = '\x27'
      · subst h2; decide
      by_cases h3 : c = '\n'
      · subst h3; decide
      by_cases h4 : c = '\t'
      · subst h4; decide
      by_cases h5 : c = '\x08'
      · subst h5; decide
      by_cases h6 : c = '\x0c'
      · subst h6; decide
      simp [escStep, specEscapeChar, h1, h2, h3, h4, h5, h6]

theorem applyEscapes_eq_specEscape (s : String) :
    applyEscapes s = specEscape s := by
  apply string_eq_of_data
  rw [applyEscapes_eq, specEscape]
  rw [pyReplace_data _ '\x0c' _ _ rfl, pyReplace_data _ '\x08' _ _ rfl,
    pyReplace_data _ '\t' _ _ rfl, pyReplace_data _ '\n' _ _ rfl,
    pyReplace_data _ '\x27' _ _ rfl, pyReplace_data _ '\\' _ _ rfl]
  exact escape_chain s.data

/-- C5: for every accepted non-null string, the produced literal is the
line-break normalization (`"\n".join(s.splitlines())`, which collapses
every Python line boundary to a newline) followed by the escape
substitutions `\`→`\\`, `'`→`\'`, newline→`\n`, tab→`\t`, backspace→`\b`,
formfeed→`\f` applied in that fixed order (their net effect being the
simultaneous substitution `specEscape`), wrapped in single quotes. -/
theorem encode_text_normalizes_then_escapes_then_quotes (s : String) :
    _encode_text s
      = "\x27" ++ specEscape (pyJoin "\n" (pySplitlines s)) ++ "\x27" := by
  rw [_encode_text, applyEscapes_eq_specEscape]

/-- A Python string as a sequence of code points (`0 ≤ cp ≤ 0x10FFFF`),
which unlike Lean `String` can hold lone surrogates — exactly the values
on which `str.encode("utf-8", "strict")` fails. -/
def isSurrogateCp (cp : Nat) : Bool := 0xD800 ≤ cp && cp ≤ 0xDFFF

/-- `RedshiftConnector._encode_metadata` over the identifier's code
points: re-encoding through UTF-8 fails on any lone surrogate
(`MetadataEncodeError`, modelled `.error "utf8"`); an empty identifier and
an identifier containing NUL (code point 0) are rejected; otherwise every
embedded double quote (code point 34) is doubled and the whole is wrapped
in double quotes. -/
def _encode_metadata (name : List Nat) : Except String (List Nat) :=
  if name.any isSurrogateCp then .error "utf8"
  else if name.length = 0 then .error "empty"
  else if name.contains 0 then .error "nul"
  else .ok (34 :: name.flatMap (fun cp => if cp = 34 then [34, 34] else [cp])
    ++ [34])

/-- C8: identifier quoting rejects exactly the empty identifier, an
identifier containing NUL, and an identifier that fails UTF-8 re-encoding
(one holding a lone surrogate); every accepted identifier is returned with
each embedded double quote doubled and the whole wrapped in double quotes;
in particular `a"b` (code points 97, 34, 98) becomes `"a""b"`. -/
theorem encode_metadata_spec (name : List Nat) :
    ((∃ e, _encode_metadata name = .error e) ↔
      (name = [] ∨ name.contains 0 = true ∨
        name.any isSurrogateCp = true)) ∧
    (∀ out, _encode_metadata name = .ok out →
      out = 34 :: name.flatMap (fun cp => if cp = 34 then [34, 34] else [cp])
        ++ [34]) ∧
    _encode_metadata [97, 34, 98] = .ok [34, 97, 34, 34, 98, 34] := by
  refine ⟨⟨?_, ?_⟩, ?_, rfl⟩
  · intro ⟨e, he⟩
    by_cases h1 : name.any isSurrogateCp
    · exact Or.inr (Or.inr h1)
    by_cases h2 : name.length = 0
    · exact Or.inl (List.length_eq_zero.mp h2)
    by_cases h3 : name.contains 0
    · exact Or.inr (Or.inl h3)
    rw [_encode_metadata, if_neg (by simp [h1]), if_neg h2,
      if_neg h3] at he
    cases he
  · intro h
    rcases h with h | h | h
    · subst h
      exact ⟨"empty", rfl⟩
    · by_cases h1 : name.any isSurrogateCp
      · exact ⟨"utf8", by rw [_encode_metadata, if_pos h1]⟩
      · refine ⟨"nul", ?_⟩
        rw [_encode_metadata, if_neg (by simp [h1]),
          if_neg (by simp; intro hc; rw [hc] at h; simp at h), if_pos h]
    · exact ⟨"utf8", by rw [_encode_metadata, if_pos h]⟩
  · intro out hout
    by_cases h1 : name.any isSurrogateCp
    · rw [_encode_metadata, if_pos h1] at hout; cases hout
    by_cases h2 : name.length = 0
    · rw [_encode_metadata, if_neg (by simp [h1]), if_pos h2] at hout
      cases hout
    by_cases h3 : name.contains 0
    · rw [_encode_metadata, if_neg (by simp [h1]), if_neg h2,
        if_pos h3] at hout
      cases hout
    rw [_encode_metadata, if_neg (by simp [h1]), if_neg h2,
      if_neg h3] at hout
    exact (Except.ok.inj hout).symm

/-- Witness for `encode_metadata_spec` at the concrete identifier `a"b`. -/
theorem encode_metadata_spec_witness :
    _encode_metadata [97, 34, 98] = .ok [34, 97, 34, 34, 98, 34] ∧
    [34, 97, 34, 34, 98, 34]
      = 34 :: [97, 34, 98].flatMap
          (fun cp => if cp = 34 then [34, 34] else [cp]) ++ [34] :=
  ⟨rfl, (encode_metadata_spec [97, 34, 98]).2.1 [34, 97, 34, 34, 98, 34] rfl⟩

/-- `TimeStamp.decode` (and its subclasses): the raw column is parsed with
`pandas.to_datetime(col, errors="coerce")`, whose parser is modelled
abstractly by `parse`; `errors="coerce"` turns each cell whose parse fails
into the null marker `NaT` instead of raising. -/
def timestamp_decode {T : Type} (parse : String → Option T)
    (col : List (Option String)) : List (Option T) :=
  col.map (fun cell => cell.bind parse)

/-- `TimeStamp.encode` (and its subclasses): the column is parsed with
`pandas.to_datetime(col)` (no `errors` option) and rendered with
`strftime`; a cell whose parse fails raises
`TypeError("cannot parse to datetime ...")`, modelled as `Except.error`;
nulls render as the literal `NULL`. -/
def timestamp_encode {T : Type} (parse : String → Option T)
    (fmt : T → String) : List (Option String) → Except String (List String)
  | [] => .ok []
  | Option.none :: rest =>
      (timestamp_encode parse fmt rest).map (fun l => "NULL" :: l)
  | some v :: rest =>
      match parse v with
      | Option.none => .error ("cannot parse to datetime " ++ v)
      | some d => (timestamp_encode parse fmt rest).map (fun l => fmt d :: l)

theorem timestamp_encode_error {T : Type} (parse : String → Option T)
    (fmt : T → String) :
    ∀ (col : List (Option String)) (i : Nat) (v : String),
      col.get? i = some (some v) → parse v = Option.none →
      ∃ e, timestamp_encode parse fmt col = .error e
  | [], i, v, hget, _ => by simp at hget
  | cell :: rest, 0, v, hget, hparse => by
      simp only [List.get?] at hget
      cases hget
      simp [timestamp_encode, hparse]
  | cell :: rest, i + 1, v, hget, hparse => by
      obtain ⟨e, he⟩ :=
        timestamp_encode_error parse fmt rest i v (by simpa using hget) hparse
      cases cell with
      | none => exact ⟨e, by simp [timestamp_encode, he, Except.map]⟩
      | some w =>
          rw [timestamp_encode]
          cases hw : parse w with
          | none => exact ⟨"cannot parse to datetime " ++ w, rfl⟩
          | some d => exact ⟨e, by simp [he, Except.map]⟩

/-- C9: on the read path a raw timestamp cell whose parse fails decodes to
null (the column-level `errors="coerce"` lenience), while on the write
path the same unparseable value makes the whole encode fail hard with the
`cannot parse to datetime` error. -/
theorem timestamp_decode_lenient_encode_strict {T : Type}
    (parse : String → Option T) (fmt : T → String)
    (col : List (Option String)) (i : Nat) (v : String)
    (hget : col.get? i = some (some v)) (hparse : parse v = Option.none) :
    (timestamp_decode parse col).get? i = some Option.none ∧
    ∃ e, timestamp_encode parse fmt col = .error e := by
  constructor
  · rw [timestamp_decode, List.get?_map, hget]
    simp [hparse]
  · exact timestamp_encode_error parse fmt col i v hget hparse

theorem timestamp_decode_lenient_encode_strict_witness :
    (([some "x"] : List (Option String)).get? 0 = some (some "x") ∧
      (fun _ : String => (Option.none : Option Nat)) "x" = Option.none) ∧
    (timestamp_decode (fun _ : String => (Option.none : Option Nat))
        [some "x"]).get? 0 = some Option.none ∧
    ∃ e, timestamp_encode (fun _ : String => (Option.none : Option Nat))
        (fun _ => "") [some "x"] = .error e :=
  ⟨⟨rfl, rfl⟩,
    timestamp_decode_lenient_encode_strict
      (fun _ => Option.none) (fun _ => "") [some "x"] 0 "x" rfl rfl⟩

/-- A Python runtime value as handled by `Super.encode._encode_super`.
The constructor records the value's exact runtime type, mirroring the
source's `type(obj) is ...` identity tests: a Python `bool` is its own
runtime type (`type(True) is int` is `False` even though `bool` subclasses
`int`), so it gets its own constructor.  A float carries its `isna` flag
and its `repr`/`str` text (float formatting itself is outside this
embedding and not exercised by any claim). -/
inductive PyVal where
  | pynone
  | pybool (b : Bool)
  | pyint (n : Int)
  | pyfloat (isNan : Bool) (text : String)
  | pystr (s : String)
  | pylist (elems : List PyVal)
  | pydict (entries : List (String × PyVal))
deriving Repr

/-- Hexadecimal digit, lower case, as produced by Python `\uXXXX` escapes. -/
def hexDigit (n : Nat) : Char :=
  "0123456789abcdef".data.getD n '0'

/-- Four-digit hexadecimal rendering of a code point below 0x10000. -/
def hex4 (n : Nat) : List Char :=
  [hexDigit (n / 4096 % 16), hexDigit (n / 256 % 16),
   hexDigit (n / 16 % 16), hexDigit (n % 16)]

/-- `json.dumps` escaping of one character inside a JSON string literal
(`ensure_ascii=True`): the named escapes, then `\uXXXX` for other control
or non-ASCII characters.  (Python writes code points above 0xFFFF as a
UTF-16 surrogate pair; that case is not exercised by any claim and is
modelled as a single `\u` escape of the code point.) -/
def jsonEscapeChar (c : Char) : List Char :=
  if c = '\x22' then ['\\', '\x22']
  else if c = '\\' then ['\\', '\\']
  else if c = '\n' then ['\\', 'n']
  else if c = '\t' then ['\\', 't']
  else if c = '\r' then ['\\', 'r']
  else if c = '\x08' then ['\\', 'b']
  else if c = '\x0c' then ['\\', 'f']
  else if c.toNat < 0x20 ∨ 0x7e < c.toNat then '\\' :: 'u' :: hex4 c.toNat
  else [c]

/-- A JSON string literal as written by `json.dumps`. -/
def jsonQuote (s : String) : String :=
  "\x22" ++ String.mk (s.data.flatMap jsonEscapeChar) ++ "\x22"

mutual

/-- Python `json.dumps(obj)` with its default separators
(`", "` between items, `": "` after keys). -/
def jsonDumps : PyVal → String
  | .pynone => "null"
  | .pybool b => if b then "true" else "false"
  | .pyint n => toString n
  | .pyfloat _ t => t
  | .pystr s => jsonQuote s
  | .pylist l => "[" ++ jsonDumpsList l ++ "]"
  | .pydict d => "\x7b" ++ jsonDumpsEntries d ++ "\x7d"

def jsonDumpsList : List PyVal → String
  | [] => ""
  | [x] => jsonDumps x
  | x :: y :: rest => jsonDumps x ++ ", " ++ jsonDumpsList (y :: rest)

def jsonDumpsEntries : List (String × PyVal) → String
  | [] => ""
  | [(k, v)] => jsonQuote k ++ ": " ++ jsonDumps v
  | (k, v) :: e :: rest =>
      jsonQuote k ++ ": " ++ jsonDumps v ++ ", " ++ jsonDumpsEntries (e :: rest)

end

/-- `Super.encode._encode_super` (`types.py`, lines 1036-1052): `None`
maps to `NULL`; a value whose runtime type is exactly `int` or `float`
maps to its decimal text (`NaN` to `NULL`); a `str` goes through the
`_encode_text` pipeline; a `dict`/`list` is JSON-serialized, text-encoded
and wrapped in `JSON_PARSE(...)`; every other runtime type — including
`bool`, which fails the `type(obj) is int` identity test — raises
`TypeError("unsupported datatype <class ...> for SUPER type")`. -/
def _encode_super : PyVal → Except String String
  | .pynone => .ok "NULL"
  | .pyint n => .ok (toString n)
  | .pyfloat isNan t => if isNan then .ok "NULL" else .ok t
  | .pystr s => .ok (_encode_text s)
  | .pylist l => .ok ("JSON_PARSE(" ++ _encode_text (jsonDumps (.pylist l)) ++ ")")
  | .pydict d => .ok ("JSON_PARSE(" ++ _encode_text (jsonDumps (.pydict d)) ++ ")")
  | .pybool _ =>
      .error "unsupported datatype <class \x27bool\x27> for SUPER type"

/-- C10: encoding a Python `bool` under the SUPER type always raises the
unsupported-datatype `TypeError` naming the runtime type `bool` — the
`type(obj) is int` / `type(obj) is float` identity tests both fail for
`True` and `False`, so a bool is never encoded as `1`/`0` (it never
reaches an `ok` result). -/
theorem super_encode_rejects_bool (b : Bool) :
    _encode_super (PyVal.pybool b)
      = .error "unsupported datatype <class \x27bool\x27> for SUPER type" :=
  rfl

/-- A character allowed in the name part of the type grammar
`^([a-zA-Z0-9 ]*)(\(([0-9, ]*?)\))?$` (`types.py` `_TYPE_REGEX`). -/
def isNameChar (c : Char) : Bool :=
  (('a' ≤ c && c ≤ 'z') || ('A' ≤ c && c ≤ 'Z') ||
   ('0' ≤ c && c ≤ '9') || c = ' ')

/-- A character allowed in the argument part `[0-9, ]` of the grammar. -/
def isArgChar (c : Char) : Bool :=
  ('0' ≤ c && c ≤ '9') || c = ',' || c = ' '

/-- Python `$` (no MULTILINE): the end anchor also matches just before a
single newline that is the last character, so the regex tolerates one
trailing `\n`. -/
def dropTrailingNewline (l : List Char) : List Char :=
  if l.getLast? = some '\n' then l.dropLast else l

/-- `_TYPE_REGEX.match(type_str)`: a match decomposes the string (after
discounting one trailing newline, which Python `$` accepts) as `NAME` or
`NAME(ARGS)` where `NAME` is over `[a-zA-Z0-9 ]` and `ARGS` over
`[0-9, ]`; since `(` can occur in neither class and `)` must be the final
character, the decomposition at the first `(` is exact.  Returns
`(group1, group3)`. -/
def parseTypeSpec (s : String) : Option (List Char × Option (List Char)) :=
  let l := dropTrailingNewline s.data
  let nm := l.takeWhile (fun c => c ≠ '(')
  match l.dropWhile (fun c => c ≠ '(') with
  | [] => if nm.all isNameChar then some (nm, Option.none) else Option.none
  | _ :: rest2 =>
    match rest2.reverse with
    | [] => Option.none
    | last :: innerRev =>
      if nm.all isNameChar && last = ')' && innerRev.reverse.all isArgChar
      then some (nm, some innerRev.reverse)
      else Option.none

/-- Python `str.strip()` restricted to the character classes reachable
here: drop whitespace from both ends. -/
def stripChars (l : List Char) : List Char :=
  ((l.dropWhile Char.isWhitespace).reverse.dropWhile Char.isWhitespace).reverse

/-- `type_name.upper().strip()` from `get_redshift_type`. -/
def canonName (nm : List Char) : String :=
  ⟨stripChars (nm.map Char.toUpper)⟩

/-- The decimal digit characters `0`-`9`. -/
def digitChar : Nat → Char
  | 0 => '0' | 1 => '1' | 2 => '2' | 3 => '3' | 4 => '4'
  | 5 => '5' | 6 => '6' | 7 => '7' | 8 => '8' | _ => '9'

/-- Decimal digits of `n`, most significant first (Python `str(int)` for a
non-negative int). -/
def natDigits (n : Nat) : List Char :=
  if n < 10 then [digitChar n]
  else natDigits (n / 10) ++ [digitChar (n % 10)]
decreasing_by exact Nat.div_lt_self (by omega) (by omega)

/-- Numeric value of a digit character. -/
def digVal (c : Char) : Nat := c.toNat - '0'.toNat

/-- Python `int(text)` on the strings reachable through the regex argument
class: strip whitespace; the remainder must be non-empty and all decimal
digits, otherwise `ValueError`. -/
def pyIntChars (l : List Char) : Option Nat :=
  let t := stripChars l
  if t ≠ [] && t.all Char.isDigit then
    some (t.foldl (fun a c => a * 10 + digVal c) 0)
  else Option.none

/-- Python `text.split(",")`. -/
def splitComma : List Char → List (List Char)
  | [] => [[]]
  | c :: rest =>
    if c = ',' then [] :: splitComma rest
    else
      match splitComma rest with
      | g :: gs => (c :: g) :: gs
      | [] => [[c]]

/-- The Python exceptions that can escape `get_redshift_type`:
`InvalidRedshiftType` (a `raise` in `get_redshift_type` or in
`Char.__init__`), `ValueError` (from `int()` on a malformed argument
token), `TypeError` (constructor called with an argument count its
signature rejects). -/
inductive PyErr where
  | invalidType
  | valueError
  | typeError
deriving DecidableEq, Repr

/-- `[int(elm.strip()) for elm in type_args.split(",")]`. -/
def parseArgList : List (List Char) → Except PyErr (List Nat)
  | [] => .ok []
  | e :: es =>
    match pyIntChars e with
    | Option.none => .error .valueError
    | some n =>
      match parseArgList es with
      | .error err => .error err
      | .ok ns => .ok (n :: ns)

/-- `type_args` handling in `get_redshift_type`: a missing or empty
(falsy) group yields no arguments. -/
def parseArgsOpt : Option (List Char) → Except PyErr (List Nat)
  | Option.none => .ok []
  | some a => if a = [] then .ok [] else parseArgList (splitComma a)

/-- The constructor classes of `type_dict` in `get_redshift_type`. -/
inductive TypeFam where
  | smallInt | integer | bigInt | numeric | real | doublePrecision
  | boolean | char | bpchar | varchar | text
  | date | timestamp | timestamptz | time | timetz | geometry | super
deriving DecidableEq, Repr

/-- The resulting type descriptors: canonical class plus the parameters
stored by `__init__` (`BPChar` and `Text` have their length fixed at 256
and carry no parameter). -/
inductive RType where
  | smallInt | integer | bigInt
  | numeric (precision scale : Nat)
  | real | doublePrecision | boolean
  | char (length : Nat) | bpchar | varchar (length : Nat) | text
  | date | timestamp | timestamptz | time | timetz | geometry | super
deriving DecidableEq, Repr

/-- `type_dict` (`types.py`, lines 34-70). -/
def lookupType (s : String) : Option TypeFam :=
  match s with
  | "SMALLINT" => some .smallInt
  | "INT2" => some .smallInt
  | "INTEGER" => some .integer
  | "INT" => some .integer
  | "INT4" => some .integer
  | "BIGINT" => some .bigInt
  | "INT8" => some .bigInt
  | "DECIMAL" => some .numeric
  | "NUMERIC" => some .numeric
  | "REAL" => some .real
  | "FLOAT4" => some .real
  | "DOUBLE PRECISION" => some .doublePrecision
  | "FLOAT8" => some .doublePrecision
  | "FLOAT" => some .doublePrecision
  | "BOOLEAN" => some .boolean
  | "BOOL" => some .boolean
  | "CHAR" => some .char
  | "CHARACTER" => some .char
  | "NCHAR" => some .char
  | "BPCHAR" => some .bpchar
  | "VARCHAR" => some .varchar
  | "CHARACTER VARYING" => some .varchar
  | "NVARCHAR" => some .varchar
  | "TEXT" => some .text
  | "DATE" => some .date
  | "TIMESTAMP" => some .timestamp
  | "TIMESTAMP WITHOUT TIME ZONE" => some .timestamp
  | "TIMESTAMPTZ" => some .timestamptz
  | "TIMESTAMP WITH TIME ZONE" => some .timestamptz
  | "TIME" => some .time
  | "TIME WITHOUT TIME ZONE" => some .time
  | "TIMETZ" => some .timetz
  | "TIME WITH TIME ZONE" => some .timetz
  | "GEOMETRY" => some .geometry
  | "SUPER" => some .super
  | _ => Option.none

/-- `Char.__init__` / `VarChar.__init__` body: `length == 0` selects the
default; a non-default length above the class ceiling raises
`InvalidRedshiftType`. -/
def charInit (dflt maxLen n : Nat) : Except PyErr Nat :=
  let len := if n = 0 then dflt else n
  if len ≠ dflt then
    if len > maxLen then .error .invalidType else .ok len
  else .ok len

/-- `redshift_type(*type_args)`: apply the resolved class to the parsed
arguments.  An argument count the `__init__` signature does not accept
raises `TypeError` (Python `object.__init__` for the classes that define
no `__init__`). -/
def construct : TypeFam → List Nat → Except PyErr RType
  | .smallInt, [] => .ok .smallInt
  | .integer, [] => .ok .integer
  | .bigInt, [] => .ok .bigInt
  | .real, [] => .ok .real
  | .doublePrecision, [] => .ok .doublePrecision
  | .boolean, [] => .ok .boolean
  | .date, [] => .ok .date
  | .timestamp, [] => .ok .timestamp
  | .timestamptz, [] => .ok .timestamptz
  | .time, [] => .ok .time
  | .timetz, [] => .ok .timetz
  | .geometry, [] => .ok .geometry
  | .super, [] => .ok .super
  | .bpchar, [] => .ok .bpchar
  | .text, [] => .ok .text
  | .numeric, [] => .ok (.numeric 18 0)
  | .numeric, [p] => .ok (.numeric p 0)
  | .numeric, [p, sc] => .ok (.numeric p sc)
  | .char, [] => .ok (.char 1)
  | .char, [n] => (charInit 1 4096 n).map RType.char
  | .varchar, [] => .ok (.varchar 256)
  | .varchar, [n] => (charInit 256 65535 n).map RType.varchar
  | _, _ => .error .typeError

/-- `get_redshift_type` (`types.py`, lines 22-82). -/
def get_redshift_type (s : String) : Except PyErr RType :=
  match parseTypeSpec s with
  | Option.none => .error .invalidType
  | some (nm, argsOpt) =>
    match lookupType (canonName nm) with
    | Option.none => .error .invalidType
    | some fam =>
      match parseArgsOpt argsOpt with
      | .error e => .error e
      | .ok args => construct fam args

/-- `RedshiftType.__str__`: the `__redshift_name__` attribute, as set up by
the class bodies and mutated by `Numeric.__init__` / `Char.__init__` for
non-default parameters. -/
def rtypeName : RType → String
  | .smallInt => "SMALLINT"
  | .integer => "INTEGER"
  | .bigInt => "BIGINT"
  | .numeric p sc =>
      if p = 18 ∧ sc = 0 then "NUMERIC"
      else ⟨"NUMERIC(".data ++ natDigits p ++ [','] ++ natDigits sc ++ [')']⟩
  | .real => "REAL"
  | .doublePrecision => "DOUBLE PRECISION"
  | .boolean => "BOOLEAN"
  | .char len =>
      if len = 1 then "CHAR" else ⟨"CHAR(".data ++ natDigits len ++ [')']⟩
  | .bpchar => "BPCHAR"
  | .varchar len =>
      if len = 256 then "VARCHAR"
      else ⟨"VARCHAR(".data ++ natDigits len ++ [')']⟩
  | .text => "TEXT"
  | .date => "DATE"
  | .timestamp => "TIMESTAMP"
  | .timestamptz => "TIMESTAMPTZ"
  | .time => "TIME"
  | .timetz => "TIMETZ"
  | .geometry => "GEOMETRY"
  | .super => "SUPER"

theorem digitChar_mem (k : Nat) :
    digitChar k ∈ ['0', '1', '2', '3', '4', '5', '6', '7', '8', '9'] := by
  rcases k with _|_|_|_|_|_|_|_|_|k <;> simp [digitChar]

theorem natDigits_ne_nil (n : Nat) : natDigits n ≠ [] := by
  rw [natDigits]
  by_cases h : n < 10 <;> simp [h]

theorem natDigits_mem (n : Nat) :
    ∀ c ∈ natDigits n,
      c ∈ ['0', '1', '2', '3', '4', '5', '6', '7', '8', '9'] := by
  induction n using Nat.strong_induction_on with
  | _ n ih =>
    intro c hc
    rw [natDigits] at hc
    by_cases h : n < 10
    · rw [if_pos h] at hc
      simp only [List.mem_singleton] at hc
      subst hc
      exact digitChar_mem n
    · rw [if_neg h] at hc
      rcases List.mem_append.mp hc with hc | hc
      · exact ih (n / 10) (Nat.div_lt_self (by omega) (by omega)) c hc
      · simp only [List.mem_singleton] at hc
        subst hc
        exact digitChar_mem (n % 10)

theorem digVal_digitChar (k : Nat) (h : k < 10) :
    digVal (digitChar k) = k := by
  interval_cases k <;> decide

theorem natDigits_foldl (n : Nat) :
    ∀ a : Nat, (natDigits n).foldl (fun a c => a * 10 + digVal c) a
      = a * 10 ^ (natDigits n).length + n := by
  induction n using Nat.strong_induction_on with
  | _ n ih =>
    intro a
    rw [natDigits]
    by_cases h : n < 10
    · rw [if_pos h]
      simp [List.foldl, digVal_digitChar n h]
    · rw [if_neg h]
      rw [List.foldl_append, ih (n / 10) (Nat.div_lt_self (by omega) (by omega)) a]
      simp only [List.foldl, List.length_append, List.length_singleton]
      rw [digVal_digitChar _ (Nat.mod_lt _ (by omega))]
      rw [pow_succ]
      have := Nat.div_add_mod n 10
      ring_nf
      omega

theorem dropWhile_eq_self_of_head {p : Char → Bool} :
    ∀ l : List Char, (∀ c ∈ l, p c = false) → l.dropWhile p = l
  | [], _ => rfl
  | c :: rest, h => by
      rw [List.dropWhile_cons, h c (by simp)]
      simp

theorem stripChars_eq_self (l : List Char)
    (h : ∀ c ∈ l, c.isWhitespace = false) : stripChars l = l := by
  rw [stripChars, dropWhile_eq_self_of_head l h,
    dropWhile_eq_self_of_head l.reverse (fun c hc => h c (by simpa using hc)),
    List.reverse_reverse]

theorem digit_not_whitespace (c : Char)
    (h : c ∈ ['0', '1', '2', '3', '4', '5', '6', '7', '8', '9']) :
    c.isWhitespace = false := by
  fin_cases h <;> decide

theorem digit_isDigit (c : Char)
    (h : c ∈ ['0', '1', '2', '3', '4', '5', '6', '7', '8', '9']) :
    c.isDigit = true := by
  fin_cases h <;> decide

theorem pyIntChars_natDigits (n : Nat) : pyIntChars (natDigits n) = some n := by
  rw [pyIntChars]
  have hstrip : stripChars (natDigits n) = natDigits n :=
    stripChars_eq_self _ (fun c hc => digit_not_whitespace c (natDigits_mem n c hc))
  simp only [hstrip]
  rw [if_pos]
  · rw [natDigits_foldl n 0]
    simp
  · simp only [Bool.and_eq_true, ne_eq, List.all_eq_true]
    exact ⟨by simpa using natDigits_ne_nil n,
      fun c hc => digit_isDigit c (natDigits_mem n c hc)⟩

theorem splitComma_no_comma :
    ∀ l : List Char, ',' ∉ l → splitComma l = [l]
  | [], _ => rfl
  | c :: rest, h => by
      rw [splitComma, if_neg (by intro hc; exact h (by simp [hc]))]
      rw [splitComma_no_comma rest (fun hc => h (by simp [hc]))]

theorem splitComma_append :
    ∀ l1 l2 : List Char, ',' ∉ l1 →
      splitComma (l1 ++ ',' :: l2) = l1 :: splitComma l2
  | [], l2, _ => by simp [splitComma]
  | c :: rest, l2, h => by
      have ih := splitComma_append rest l2 (fun hc => h (by simp [hc]))
      simp only [List.cons_append, splitComma, List.append_eq,
        if_neg (show ¬c = ',' by intro hc; exact h (by simp [hc]))]
      rw [ih]

theorem takeWhile_append_cons {p : Char → Bool} :
    ∀ (l1 : List Char) (c : Char) (l2 : List Char),
      (∀ x ∈ l1, p x = true) → p c = false →
      ((l1 ++ c :: l2).takeWhile p = l1 ∧
        (l1 ++ c :: l2).dropWhile p = c :: l2)
  | [], c, l2, _, hc => by simp [List.takeWhile_cons, List.dropWhile_cons, hc]
  | x :: rest, c, l2, h1, hc => by
      have ih := takeWhile_append_cons rest c l2 (fun y hy => h1 y (by simp [hy])) hc
      simp only [List.cons_append, List.takeWhile_cons, List.dropWhile_cons,
        h1 x (by simp)]
      simp [ih.1, ih.2]

theorem nameChar_props (c : Char) (h : isNameChar c = true) :
    (c = '(') = False ∧ (c = ')') = False := by
  constructor <;> simp only [eq_iff_iff, iff_false] <;> intro heq <;>
    subst heq <;> simp [isNameChar] at h

theorem argChar_props (c : Char) (h : isArgChar c = true) :
    (c = '(') = False := by
  simp only [eq_iff_iff, iff_false]
  intro heq
  subst heq
  simp [isArgChar] at h

theorem parseTypeSpec_paren (nm inner : List Char)
    (h1 : nm.all isNameChar = true) (h2 : inner.all isArgChar = true) :
    parseTypeSpec ⟨nm ++ '(' :: (inner ++ [')'])⟩ = some (nm, some inner) := by
  have hdrop : dropTrailingNewline (nm ++ '(' :: (inner ++ [')']))
      = nm ++ '(' :: (inner ++ [')']) := by
    rw [dropTrailingNewline, if_neg]
    rw [show nm ++ '(' :: (inner ++ [')']) = (nm ++ '(' :: inner) ++ [')']
      by simp]
    rw [List.getLast?_concat]
    decide
  have hnm : ∀ x ∈ nm, (decide ¬x = '(') = true := by
    intro x hx
    have := (nameChar_props x (by rw [List.all_eq_true] at h1; exact h1 x hx)).1
    simp [this]
  have hsplit := takeWhile_append_cons nm '(' (inner ++ [')']) hnm (by simp)
  rw [parseTypeSpec]
  simp only [hdrop, hsplit.1, hsplit.2, List.reverse_append, List.reverse_cons,
    List.reverse_nil, List.nil_append, List.singleton_append]
  rw [if_pos]
  · simp
  · simp only [Bool.and_eq_true, decide_eq_true_eq]
    exact ⟨⟨h1, trivial⟩, by simpa using h2⟩

theorem digit_isArgChar (c : Char)
    (h : c ∈ ['0', '1', '2', '3', '4', '5', '6', '7', '8', '9']) :
    isArgChar c = true := by
  fin_cases h <;> decide

theorem natDigits_no_comma (n : Nat) : ',' ∉ natDigits n := by
  intro hc
  have := natDigits_mem n ',' hc
  simp at this

theorem natDigits_all_argChar (n : Nat) :
    (natDigits n).all isArgChar = true := by
  rw [List.all_eq_true]
  exact fun c hc => digit_isArgChar c (natDigits_mem n c hc)

theorem parseArgsOpt_one (n : Nat) :
    parseArgsOpt (some (natDigits n)) = .ok [n] := by
  rw [parseArgsOpt, if_neg (by simpa using natDigits_ne_nil n),
    splitComma_no_comma _ (natDigits_no_comma n)]
  rw [parseArgList, pyIntChars_natDigits n]
  rfl

theorem parseArgsOpt_two (p sc : Nat) :
    parseArgsOpt (some (natDigits p ++ ',' :: natDigits sc)) = .ok [p, sc] := by
  rw [parseArgsOpt, if_neg (by simp [natDigits_ne_nil p]),
    splitComma_append _ _ (natDigits_no_comma p),
    splitComma_no_comma _ (natDigits_no_comma sc)]
  rw [parseArgList, pyIntChars_natDigits p, parseArgList,
    pyIntChars_natDigits sc]
  rfl

theorem get_paren (nmStr : String) (fam : TypeFam) (inner : List Char)
    (hlook : lookupType (canonName nmStr.data) = some fam)
    (hname : nmStr.data.all isNameChar = true)
    (hinner : inner.all isArgChar = true) :
    get_redshift_type ⟨nmStr.data ++ '(' :: (inner ++ [')'])⟩
      = match parseArgsOpt (some inner) with
        | .error e => .error e
        | .ok args => construct fam args := by
  rw [get_redshift_type, parseTypeSpec_paren _ _ hname hinner]
  simp only [hlook]

theorem roundtrip_numeric (p sc : Nat) :
    get_redshift_type (rtypeName (.numeric p sc)) = .ok (.numeric p sc) := by
  rw [rtypeName]
  by_cases h : p = 18 ∧ sc = 0
  · obtain ⟨hp, hs⟩ := h
    subst hp
    subst hs
    rw [if_pos ⟨rfl, rfl⟩]
    rfl
  · rw [if_neg h]
    have hshape : "NUMERIC(".data ++ natDigits p ++ [','] ++ natDigits sc
          ++ [')']
        = "NUMERIC".data ++ '(' ::
          ((natDigits p ++ ',' :: natDigits sc) ++ [')']) := by
      simp
    rw [hshape, get_paren "NUMERIC" .numeric _ (by decide) (by decide)
      (by simp [List.all_append, natDigits_all_argChar]; decide),
      parseArgsOpt_two p sc]
    rfl

theorem roundtrip_char (len : Nat)
    (h : len = 1 ∨ (len ≠ 0 ∧ len ≤ 4096)) :
    get_redshift_type (rtypeName (.char len)) = .ok (.char len) := by
  rw [rtypeName]
  by_cases h1 : len = 1
  · subst h1
    rw [if_pos rfl]
    rfl
  · rw [if_neg h1]
    rcases h with h | ⟨hz, hle⟩
    · exact absurd h h1
    have hshape : "CHAR(".data ++ natDigits len ++ [')']
        = "CHAR".data ++ '(' :: (natDigits len ++ [')']) := by
      simp
    rw [hshape, get_paren "CHAR" .char _ (by decide) (by decide)
      (natDigits_all_argChar len), parseArgsOpt_one len]
    show (charInit 1 4096 len).map RType.char = .ok (.char len)
    rw [charInit]
    simp only [if_neg hz, if_pos h1]
    rw [if_neg (by omega)]
    rfl

theorem roundtrip_varchar (len : Nat)
    (h : len = 256 ∨ (len ≠ 0 ∧ len ≤ 65535)) :
    get_redshift_type (rtypeName (.varchar len)) = .ok (.varchar len) := by
  rw [rtypeName]
  by_cases h1 : len = 256
  · subst h1
    rw [if_pos rfl]
    rfl
  · rw [if_neg h1]
    rcases h with h | ⟨hz, hle⟩
    · exact absurd h h1
    have hshape : "VARCHAR(".data ++ natDigits len ++ [')']
        = "VARCHAR".data ++ '(' :: (natDigits len ++ [')']) := by
      simp
    rw [hshape, get_paren "VARCHAR" .varchar _ (by decide) (by decide)
      (natDigits_all_argChar len), parseArgsOpt_one len]
    show (charInit 256 65535 len).map RType.varchar = .ok (.varchar len)
    rw [charInit]
    simp only [if_neg hz, if_pos h1]
    rw [if_neg (by omega)]
    rfl

theorem charInit_ok (dflt maxLen n len : Nat)
    (h : charInit dflt maxLen n = .ok len) :
    len = dflt ∨ (len ≠ 0 ∧ len ≤ maxLen) := by
  simp only [charInit] at h
  by_cases hz : n = 0
  · rw [if_pos hz, if_neg (by simp)] at h
    injection h with h2
    exact Or.inl h2.symm
  · rw [if_neg hz] at h
    by_cases he : n = dflt
    · rw [if_neg (by simp [he])] at h
      injection h with h2
      exact Or.inl (by omega)
    · rw [if_pos he] at h
      by_cases hm : n > maxLen
      · rw [if_pos hm] at h
        exact Except.noConfusion h
      · rw [if_neg hm] at h
        injection h with h2
        exact Or.inr ⟨by omega, by omega⟩

theorem construct_roundtrip (fam : TypeFam) (args : List Nat) (t : RType)
    (h : construct fam args = .ok t) :
    get_redshift_type (rtypeName t) = .ok t := by
  cases fam with
  | smallInt =>
      cases args with
      | nil => injection h with h2; subst h2; rfl
      | cons a as => exact Except.noConfusion h
  | integer =>
      cases args with
      | nil => injection h with h2; subst h2; rfl
      | cons a as => exact Except.noConfusion h
  | bigInt =>
      cases args with
      | nil => injection h with h2; subst h2; rfl
      | cons a as => exact Except.noConfusion h
  | real =>
      cases args with
      | nil => injection h with h2; subst h2; rfl
      | cons a as => exact Except.noConfusion h
  | doublePrecision =>
      cases args with
      | nil => injection h with h2; subst h2; rfl
      | cons a as => exact Except.noConfusion h
  | boolean =>
      cases args with
      | nil => injection h with h2; subst h2; rfl
      | cons a as => exact Except.noConfusion h
  | date =>
      cases args with
      | nil => injection h with h2; subst h2; rfl
      | cons a as => exact Except.noConfusion h
  | timestamp =>
      cases args with
      | nil => injection h with h2; subst h2; rfl
      | cons a as => exact Except.noConfusion h
  | timestamptz =>
      cases args with
      | nil => injection h with h2; subst h2; rfl
      | cons a as => exact Except.noConfusion h
  | time =>
      cases args with
      | nil => injection h with h2; subst h2; rfl
      | cons a as => exact Except.noConfusion h
  | timetz =>
      cases args with
      | nil => injection h with h2; subst h2; rfl
      | cons a as => exact Except.noConfusion h
  | geometry =>
      cases args with
      | nil => injection h with h2; subst h2; rfl
      | cons a as => exact Except.noConfusion h
  | super =>
      cases args with
      | nil => injection h with h2; subst h2; rfl
      | cons a as => exact Except.noConfusion h
  | bpchar =>
      cases args with
      | nil => injection h with h2; subst h2; rfl
      | cons a as => exact Except.noConfusion h
  | text =>
      cases args with
      | nil => injection h with h2; subst h2; rfl
      | cons a as => exact Except.noConfusion h
  | numeric =>
      rcases args with _ | ⟨p, _ | ⟨sc, _ | ⟨x, rest⟩⟩⟩
      · injection h with h2; subst h2; exact roundtrip_numeric 18 0
      · injection h with h2; subst h2; exact roundtrip_numeric p 0
      · injection h with h2; subst h2; exact roundtrip_numeric p sc
      · exact Except.noConfusion h
  | char =>
      rcases args with _ | ⟨n, _ | ⟨x, rest⟩⟩
      · injection h with h2; subst h2; exact roundtrip_char 1 (Or.inl rfl)
      · cases hc : charInit 1 4096 n with
        | error e =>
            rw [show construct .char [n] = (charInit 1 4096 n).map RType.char
              from rfl, hc] at h
            exact Except.noConfusion h
        | ok len =>
            rw [show construct .char [n] = (charInit 1 4096 n).map RType.char
              from rfl, hc] at h
            injection h with h2
            subst h2
            exact roundtrip_char len (charInit_ok 1 4096 n len hc)
      · exact Except.noConfusion h
  | varchar =>
      rcases args with _ | ⟨n, _ | ⟨x, rest⟩⟩
      · injection h with h2; subst h2; exact roundtrip_varchar 256 (Or.inl rfl)
      · cases hc : charInit 256 65535 n with
        | error e =>
            rw [show construct .varchar [n]
              = (charInit 256 65535 n).map RType.varchar from rfl, hc] at h
            exact Except.noConfusion h
        | ok len =>
            rw [show construct .varchar [n]
              = (charInit 256 65535 n).map RType.varchar from rfl, hc] at h
            injection h with h2
            subst h2
            exact roundtrip_varchar len (charInit_ok 256 65535 n len hc)
      · exact Except.noConfusion h

/-- C6: resolving any supported type-name string, rendering the resulting
descriptor back with `__str__` and resolving again yields the same
descriptor (same canonical class and same stored parameters). -/
theorem resolve_str_resolve_roundtrip (s : String) (t : RType)
    (h : get_redshift_type s = .ok t) :
    get_redshift_type (rtypeName t) = .ok t := by
  cases hp : parseTypeSpec s with
  | none =>
      simp only [get_redshift_type, hp] at h
      exact Except.noConfusion h
  | some pr =>
      obtain ⟨nm, argsOpt⟩ := pr
      cases hl : lookupType (canonName nm) with
      | none =>
          simp only [get_redshift_type, hp, hl] at h
          exact Except.noConfusion h
      | some fam =>
          cases ha : parseArgsOpt argsOpt with
          | error e =>
              simp only [get_redshift_type, hp, hl, ha] at h
              exact Except.noConfusion h
          | ok args =>
              simp only [get_redshift_type, hp, hl, ha] at h
              exact construct_roundtrip fam args t h

theorem resolve_str_resolve_roundtrip_witness :
    get_redshift_type "decimal( 7 , 3 )" = .ok (.numeric 7 3) ∧
    get_redshift_type (rtypeName (.numeric 7 3)) = .ok (.numeric 7 3) :=
  ⟨rfl, resolve_str_resolve_roundtrip "decimal( 7 , 3 )" (.numeric 7 3) rfl⟩

/-- C7 counterexample: `"CHAR( )"` is a supported name with a malformed
(non-integer) argument token, so by the claim resolution should fail with
`InvalidRedshiftType`; instead `int(" ".strip())` raises a plain
`ValueError`, which propagates uncaught. -/
theorem resolve_malformed_arg_is_plain_valueerror :
    get_redshift_type "CHAR( )" = .error .valueError ∧
    PyErr.valueError ≠ PyErr.invalidType ∧
    pyIntChars " ".data = Option.none :=
  ⟨rfl, by decide, rfl⟩

theorem parseArgList_error :
    ∀ (es : List (List Char)) (e : PyErr),
      parseArgList es = .error e → e = .valueError
  | [], e, h => Except.noConfusion h
  | x :: xs, e, h => by
      rw [parseArgList] at h
      cases hx : pyIntChars x with
      | none =>
          rw [hx] at h
          injection h with h2
          exact h2.symm
      | some n =>
          rw [hx] at h
          cases hr : parseArgList xs with
          | error e2 =>
              rw [hr] at h
              injection h with h2
              rw [← h2]
              exact parseArgList_error xs e2 hr
          | ok ns => rw [hr] at h; exact Except.noConfusion h

theorem parseArgsOpt_error (ar : Option (List Char)) (e : PyErr)
    (h : parseArgsOpt ar = .error e) : e = .valueError := by
  cases ar with
  | none => exact Except.noConfusion h
  | some a =>
      rw [parseArgsOpt] at h
      by_cases ha : a = []
      · rw [if_pos ha] at h
        exact Except.noConfusion h
      · rw [if_neg ha] at h
        exact parseArgList_error _ e h

theorem charInit_error (dflt maxLen n : Nat) (e : PyErr)
    (h : charInit dflt maxLen n = .error e) : maxLen < n := by
  simp only [charInit] at h
  by_cases hz : n = 0
  · rw [if_pos hz, if_neg (by simp)] at h
    exact Except.noConfusion h
  · rw [if_neg hz] at h
    by_cases he : n = dflt
    · rw [if_neg (by simp [he])] at h
      exact Except.noConfusion h
    · rw [if_pos he] at h
      by_cases hm : n > maxLen
      · omega
      · rw [if_neg hm] at h
        exact Except.noConfusion h

theorem construct_invalid_only_char_length (fam : TypeFam) (args : List Nat)
    (h : construct fam args = .error .invalidType) :
    ∃ n, args = [n] ∧
      ((fam = .char ∧ 4096 < n) ∨ (fam = .varchar ∧ 65535 < n)) := by
  cases fam with
  | char =>
      rcases args with _ | ⟨n, _ | ⟨x, rest⟩⟩
      · exact Except.noConfusion h
      · refine ⟨n, rfl, Or.inl ⟨rfl, ?_⟩⟩
        rw [show construct .char [n] = (charInit 1 4096 n).map RType.char
          from rfl] at h
        cases hc : charInit 1 4096 n with
        | error e => exact charInit_error 1 4096 n e hc
        | ok len => rw [hc] at h; exact Except.noConfusion h
      · injection h with h2; exact absurd h2.symm (by decide)
  | varchar =>
      rcases args with _ | ⟨n, _ | ⟨x, rest⟩⟩
      · exact Except.noConfusion h
      · refine ⟨n, rfl, Or.inr ⟨rfl, ?_⟩⟩
        rw [show construct .varchar [n]
          = (charInit 256 65535 n).map RType.varchar from rfl] at h
        cases hc : charInit 256 65535 n with
        | error e => exact charInit_error 256 65535 n e hc
        | ok len => rw [hc] at h; exact Except.noConfusion h
      · injection h with h2; exact absurd h2.symm (by decide)
  | numeric =>
      rcases args with _ | ⟨p, _ | ⟨sc, _ | ⟨x, rest⟩⟩⟩ <;>
        first
        | exact Except.noConfusion h
        | (injection h with h2; exact absurd h2.symm (by decide))
  | smallInt =>
      cases args with
      | nil => exact Except.noConfusion h
      | cons a as => injection h with h2; exact absurd h2.symm (by decide)
  | integer =>
      cases args with
      | nil => exact Except.noConfusion h
      | cons a as => injection h with h2; exact absurd h2.symm (by decide)
  | bigInt =>
      cases args with
      | nil => exact Except.noConfusion h
      | cons a as => injection h with h2; exact absurd h2.symm (by decide)
  | real =>
      cases args with
      | nil => exact Except.noConfusion h
      | cons a as => injection h with h2; exact absurd h2.symm (by decide)
  | doublePrecision =>
      cases args with
      | nil => exact Except.noConfusion h
      | cons a as => injection h with h2; exact absurd h2.symm (by decide)
  | boolean =>
      cases args with
      | nil => exact Except.noConfusion h
      | cons a as => injection h with h2; exact absurd h2.symm (by decide)
  | date =>
      cases args with
      | nil => exact Except.noConfusion h
      | cons a as => injection h with h2; exact absurd h2.symm (by decide)
  | timestamp =>
      cases args with
      | nil => exact Except.noConfusion h
      | cons a as => injection h with h2; exact absurd h2.symm (by decide)
  | timestamptz =>
      cases args with
      | nil => exact Except.noConfusion h
      | cons a as => injection h with h2; exact absurd h2.symm (by decide)
  | time =>
      cases args with
      | nil => exact Except.noConfusion h
      | cons a as => injection h with h2; exact absurd h2.symm (by decide)
  | timetz =>
      cases args with
      | nil => exact Except.noConfusion h
      | cons a as => injection h with h2; exact absurd h2.symm (by decide)
  | geometry =>
      cases args with
      | nil => exact Except.noConfusion h
      | cons a as => injection h with h2; exact absurd h2.symm (by decide)
  | super =>
      cases args with
      | nil => exact Except.noConfusion h
      | cons a as => injection h with h2; exact absurd h2.symm (by decide)
  | bpchar =>
      cases args with
      | nil => exact Except.noConfusion h
      | cons a as => injection h with h2; exact absurd h2.symm (by decide)
  | text =>
      cases args with
      | nil => exact Except.noConfusion h
      | cons a as => injection h with h2; exact absurd h2.symm (by decide)

/-- C7 (amended): resolution fails with `InvalidRedshiftType` exactly when
the input fails the `NAME`/`NAME(args)` grammar (whose `$` anchor accepts
one trailing newline, so `"INT\n"` and `"NUMERIC(5)\n"` resolve
successfully), when the case-insensitive trimmed name is not among the
supported names, or when a `Char`/`VarChar` length argument exceeds the
family ceiling (4096 / 65535); a malformed (non-integer) argument token
instead raises a plain `ValueError` from `int()`, and an argument count
the resolved constructor does not accept raises a `TypeError`. -/
theorem resolve_invalidtype_characterization :
    (∀ s, parseTypeSpec s = Option.none →
      get_redshift_type s = .error .invalidType) ∧
    (∀ s nm ar, parseTypeSpec s = some (nm, ar) →
      lookupType (canonName nm) = Option.none →
      get_redshift_type s = .error .invalidType) ∧
    (∀ s, get_redshift_type s = .error .invalidType →
      parseTypeSpec s = Option.none ∨
      ∃ nm ar, parseTypeSpec s = some (nm, ar) ∧
        (lookupType (canonName nm) = Option.none ∨
          ∃ fam args, lookupType (canonName nm) = some fam ∧
            parseArgsOpt ar = .ok args ∧
            ∃ n, args = [n] ∧
              ((fam = .char ∧ 4096 < n) ∨ (fam = .varchar ∧ 65535 < n)))) ∧
    get_redshift_type "CHAR(4097)" = .error .invalidType ∧
    get_redshift_type "VARCHAR(65536)" = .error .invalidType ∧
    get_redshift_type "CHAR( )" = .error .valueError ∧
    get_redshift_type "SMALLINT(3)" = .error .typeError ∧
    get_redshift_type "INT\n" = .ok RType.integer ∧
    get_redshift_type "NUMERIC(5)\n" = .ok (RType.numeric 5 0) := by
  refine ⟨?_, ?_, ?_, rfl, rfl, rfl, rfl, rfl, rfl⟩
  · intro s h
    simp only [get_redshift_type, h]
  · intro s nm ar h1 h2
    simp only [get_redshift_type, h1, h2]
  · intro s h
    cases hp : parseTypeSpec s with
    | none => exact Or.inl rfl
    | some pr =>
        obtain ⟨nm, ar⟩ := pr
        refine Or.inr ⟨nm, ar, rfl, ?_⟩
        cases hl : lookupType (canonName nm) with
        | none => exact Or.inl rfl
        | some fam =>
            refine Or.inr ⟨fam, ?_⟩
            cases ha : parseArgsOpt ar with
            | error e =>
                simp only [get_redshift_type, hp, hl, ha] at h
                injection h with h2
                exact absurd (parseArgsOpt_error ar e ha)
                  (by rw [h2]; decide)
            | ok args =>
                simp only [get_redshift_type, hp, hl, ha] at h
                exact ⟨args, rfl, rfl,
                  construct_invalid_only_char_length fam args h⟩

theorem resolve_invalidtype_characterization_witness :
    parseTypeSpec "@" = Option.none ∧
    get_redshift_type "@" = .error .invalidType :=
  ⟨rfl, resolve_invalidtype_characterization.1 "@" rfl⟩
